import Mathlib

/-!
# Verification of the `telebot-send` media dispatcher (`sendtg.py`)

Shallow embedding of the program `sendtg.py`.  The embedding follows the
source code line by line:

* Python strings are Lean `String` (in this toolchain a `String` wraps a
  `List Char`, which matches Python's sequence-of-characters view closely
  enough for the operations used: `replace`, `startswith`, concatenation).
* Python `None`-or-string values are `Option String` (`none` = `None`).
* Python truthiness of an optional string (`if x:`) is `pyTruthy`:
  `None` and `""` are falsy.
* The filesystem and the `mimetypes`/`os.path` helpers are an explicit
  environment `Env` (`os.path.isfile`, `mimetypes.guess_type`,
  `os.path.basename`).
* `open(path, "rb")` returns a fresh handle, modelled as a `Nat` drawn from
  a counter; `files_data` (a Python `dict`) is an association list with
  insert-or-replace semantics preserving the position of an existing key,
  exactly like a Python dict.
* Each `requests.post` performed on the main thread is numbered in program
  order; the network is an oracle `nf : Nat → Option String` giving, for
  the k-th post, `none` (HTTP success) or `some msg` (a
  `requests.exceptions.RequestException` whose `str()` is `msg`).
  `send_chat_action` posts from a fire-and-forget thread and swallows its
  own failures (no observable effect on the dispatcher), so it is not
  modelled as a request.
* Logging is modelled as a list of structured `LogEvent`s in emission
  order; `log.debug` calls are not events relevant to any claim and are
  omitted.
-/

/-- Boolean prefix test on `List Char` (kernel-friendly form of Python
`str.startswith`). -/
def pyStartsWith (s pre : String) : Bool :=
  pre.data.isPrefixOf s.data

/-- One step of Python `str.replace(tok, rep)` semantics with explicit fuel
(the fuel is only a termination device; `fuel = l.length` always suffices
because every step consumes at least one character).  Scans left to right,
replacing the leftmost occurrence and continuing after it,
non-overlapping — exactly CPython's `str.replace` for a non-empty `tok`. -/
def pyReplaceFuel (tok rep : List Char) : Nat → List Char → List Char
  | _, [] => []
  | 0, l => l
  | fuel + 1, c :: cs =>
    if tok.isPrefixOf (c :: cs) ∧ tok ≠ [] then
      rep ++ pyReplaceFuel tok rep fuel (cs.drop (tok.length - 1))
    else
      c :: pyReplaceFuel tok rep fuel cs

/-- Embedding of Python `s.replace(tok, rep)` (for the non-empty `tok`s the
program uses: the bot token in `log_except`, `"attach://"` in the
dispatcher). -/
def stringReplace (s tok rep : String) : String :=
  ⟨pyReplaceFuel tok.data rep.data s.data.length s.data⟩

/-- Whether `tok` occurs as a contiguous substring of `l`. -/
def hasSub (tok : List Char) : List Char → Bool
  | [] => tok.isEmpty
  | c :: cs => tok.isPrefixOf (c :: cs) || hasSub tok cs

/-- The segments of `l` between the leftmost non-overlapping occurrences of
`tok`, in order (the same scan as `pyReplaceFuel`); used to characterise
what `str.replace` does. -/
def splitTokFuel (tok : List Char) : Nat → List Char → List (List Char)
  | _, [] => [[]]
  | 0, l => [l]
  | fuel + 1, c :: cs =>
    if tok.isPrefixOf (c :: cs) ∧ tok ≠ [] then
      [] :: splitTokFuel tok fuel (cs.drop (tok.length - 1))
    else
      match splitTokFuel tok fuel cs with
      | [] => [[c]]
      | p :: ps => (c :: p) :: ps

/-- The token-split of a string (see `splitTokFuel`). -/
def splitTok (tok l : List Char) : List (List Char) :=
  splitTokFuel tok l.length l

/-- Join a list of segments with a separator (Python `sep.join(parts)`). -/
def joinSep (sep : List Char) : List (List Char) → List Char
  | [] => []
  | [p] => p
  | p :: ps => p ++ sep ++ joinSep sep ps

/-- Python truthiness of an optional string: `None` and `""` are falsy. -/
def pyTruthy : Option String → Bool
  | none => false
  | some s => s ≠ ""

/-- Python `a or b` on optional strings. -/
def pyOr (a b : Option String) : Option String :=
  if pyTruthy a then a else b

/-- The classification `SendTg._media_type` returns. -/
inductive MediaType
  | photo
  | video
  | audio
  | document
deriving DecidableEq, Repr

/-- The `SendTg` object: `api_url`, `bot_token`, `chat_id` as resolved by
`__init__` (the token and chat id are genuine strings once `__init__` has
not raised). -/
structure SendTg where
  api_url : Option String
  bot_token : String
  chat_id : String
deriving DecidableEq, Repr

/-- Embedding of `SendTg.__init__`: resolves each field as `arg or DEFAULT` and raises
`ValueError` (modelled as `Except.error` with the exception message) when
the resolved bot token or chat id is falsy. -/
def SendTg.init (api_url bot_token chat_id dApi dTok dChat : Option String) :
    Except String SendTg :=
  let u := pyOr api_url dApi
  let t := pyOr bot_token dTok
  let c := pyOr chat_id dChat
  if pyTruthy t = false then Except.error "Bot token is missing!"
  else if pyTruthy c = false then Except.error "Chat ID is missing!"
  else Except.ok ⟨u, t.getD "", c.getD ""⟩

/-- Embedding of `SendTg.log_except(msgs, e)`: the text handed to `log.error` — the
prefix, a space, and `str(e)` with every occurrence of the bot token
replaced by `"REDACTED"`. -/
def SendTg.log_except (cfg : SendTg) (msgs e : String) : String :=
  msgs ++ " " ++ stringReplace e cfg.bot_token "REDACTED"

/-- Embedding of `SendTg._media_type(mime_type)`: Python checks `mime_type and
mime_type.startswith(...)`, so a `None` (or empty) mime type falls through
to `"document"`. -/
def SendTg._media_type (mime_type : Option String) : MediaType :=
  match mime_type with
  | none => MediaType.document
  | some m =>
    if m ≠ "" ∧ pyStartsWith m "image/" then MediaType.photo
    else if m ≠ "" ∧ pyStartsWith m "video/" then MediaType.video
    else if m ≠ "" ∧ pyStartsWith m "audio/" then MediaType.audio
    else MediaType.document

/-- The ambient filesystem / stdlib helpers used by `send_media`. -/
structure Env where
  isFile : String → Bool
  mime : String → Option String
  basename : String → String

/-- One element of the Python `media_group` list: the dict
`{"type": ..., "media": "attach://...", "caption": ..., "has_spoiler": ...}`.
The `caption` field is `Option String` because Python stores either `None`
(when the caption argument was `None` and this is the first item) or a
string; `_send_media_group` later deletes the key exactly when the stored
value is `None`, so after that pass `none` means "caption key absent from
the serialized JSON descriptor" and `some s` means "caption key present
with string `s`". -/
structure MediaDesc where
  type : MediaType
  media : String
  caption : Option String
  has_spoiler : Bool
deriving DecidableEq, Repr

/-- Python dict assignment `d[k] = v` on an association list: replaces in
place if the key exists (keeping its position), else appends. -/
def insertReplace : List (String × Nat) → String → Nat → List (String × Nat)
  | [], k, v => [(k, v)]
  | (k1, v1) :: rest, k, v =>
    if k1 = k then (k, v) :: rest else (k1, v1) :: insertReplace rest k v

/-- Python `d[k]` / `k in d` on an association list. -/
def lookupA : List (String × Nat) → String → Option Nat
  | [], _ => none
  | (k1, v1) :: rest, k => if k1 = k then some v1 else lookupA rest k

/-- Structured log lines emitted by the dispatcher (constructor per call
site). -/
inductive LogEvent
  | fileNotFound (path : String)
  | buttonSpecError
  | sendingInGroups
  | sendingGroupNum (num count : Nat)
  | mediaGroupSent (count : Nat)
  | sendGroupFailed (text : String)
  | singleSent (fileName : String)
  | sendSingleFailed (text : String)
  | documentSent (path : String)
  | sendDocumentFailed (text : String)
deriving DecidableEq, Repr

/-- An outbound main-thread HTTP request issued by the dispatcher. -/
inductive Request
  | doc (chat path : String) (caption : Option String)
      (reply_markup : Option (String × String))
  | single (chat : String) (mtype : MediaType) (fileName : String)
      (handle : Nat) (caption : Option String)
      (reply_markup : Option (String × String)) (spoiler : Bool)
  | group (chat : String) (media : List MediaDesc)
      (files : List (String × Nat))
deriving DecidableEq, Repr

/-- The `media` array of a grouped request (empty for the other request
kinds). -/
def Request.mediaList : Request → List MediaDesc
  | .group _ m _ => m
  | _ => []

/-- The `caption` form field of a document / single-media request. -/
def Request.captionOf : Request → Option String
  | .doc _ _ c _ => c
  | .single _ _ _ _ c _ _ => c
  | .group _ _ _ => none

/-- The attachment name of a single-media request. -/
def Request.fileNameOf : Request → String
  | .single _ _ n _ _ _ _ => n
  | _ => ""

/-- Embedding of `SendTg._create_reply_markup(button_text, button_url)`: both truthy →
markup; exactly one truthy → error logged and no markup; neither → no
markup.  The markup JSON is represented by the `(text, url)` pair it
serializes. -/
def SendTg._create_reply_markup (button_text button_url : Option String) :
    Option (String × String) × List LogEvent :=
  if pyTruthy button_text ∧ pyTruthy button_url then
    (some (button_text.getD "", button_url.getD ""), [])
  else if pyTruthy button_text ∨ pyTruthy button_url then
    (none, [LogEvent.buttonSpecError])
  else
    (none, [])

/-- State threaded through the `for media_path in media_paths` loop of
`send_media`: the `media_group` list, the `files_data` dict (basename ↦
open handle), the next fresh handle, and every handle opened so far. -/
structure LoopState where
  mediaGroup : List MediaDesc
  filesData : List (String × Nat)
  nextHandle : Nat
  opened : List Nat
deriving DecidableEq, Repr

/-- The `for media_path in media_paths:` loop of `send_media`
(lines 209–232).  Returns the final state, `some p` when the loop hit the
`else` branch (document-classified path `p`, which triggers
`_send_document` and an immediate `return`), and the log events emitted by
the loop. -/
def processPaths (env : Env) (as_file : Bool) (caption : Option String)
    (spoiler : Bool) :
    List String → LoopState → LoopState × Option String × List LogEvent
  | [], s => (s, none, [])
  | p :: ps, s =>
    if env.isFile p = false then
      let r := processPaths env as_file caption spoiler ps s
      (r.1, r.2.1, LogEvent.fileNotFound p :: r.2.2)
    else
      let mt := if as_file then MediaType.document
                else SendTg._media_type (env.mime p)
      if mt ≠ MediaType.document then
        let nm := env.basename p
        let d : MediaDesc :=
          ⟨mt, "attach://" ++ nm,
            (if s.mediaGroup.isEmpty then caption else some ""), spoiler⟩
        processPaths env as_file caption spoiler ps
          ⟨s.mediaGroup ++ [d], insertReplace s.filesData nm s.nextHandle,
            s.nextHandle + 1, s.opened ++ [s.nextHandle]⟩
      else
        (s, some p, [])

/-- Embedding of `SendTg._send_document` (lines 291–305): one `sendDocument` post (the
`idx`-th main-thread post); its `RequestException` is caught locally and
logged through `log_except`.  The file is opened by a `with` block, so its
handle is always closed again; the handle bookkeeping is done by the
caller. -/
def SendTg._send_document (cfg : SendTg) (nf : Nat → Option String)
    (idx : Nat) (chat path : String) (caption : Option String)
    (rm : Option (String × String)) : Request × List LogEvent :=
  (Request.doc chat path caption rm,
    match nf idx with
    | none => [LogEvent.documentSent path]
    | some m =>
      [LogEvent.sendDocumentFailed
        (cfg.log_except "Failed to send document:" m)])

/-- Embedding of `SendTg._send_media_group` (lines 307–326): deletes the `caption` key
of every descriptor whose stored value is `None` (in the `Option`
representation this is the identity — `none` now reads "key absent"),
posts `sendMediaGroup`, and catches/logs its own `RequestException`. -/
def SendTg._send_media_group (cfg : SendTg) (nf : Nat → Option String)
    (idx : Nat) (chat : String) (media_chunk : List MediaDesc)
    (files : List (String × Nat)) : Request × List LogEvent :=
  (Request.group chat media_chunk files,
    match nf idx with
    | none => [LogEvent.mediaGroupSent media_chunk.length]
    | some m =>
      [LogEvent.sendGroupFailed
        (cfg.log_except "Failed to send media group:" m)])

/-- Embedding of `SendTg._send_single_media` (lines 328–346): posts one typed
request whose form data carries the caption, reply markup and spoiler flag
it was called with; catches/logs its own `RequestException`. -/
def SendTg._send_single_media (cfg : SendTg) (nf : Nat → Option String)
    (idx : Nat) (chat : String) (d : MediaDesc) (nm : String) (h : Nat)
    (caption : Option String) (rm : Option (String × String))
    (spoiler : Bool) : Request × List LogEvent :=
  (Request.single chat d.type nm h caption rm spoiler,
    match nf idx with
    | none => [LogEvent.singleSent nm]
    | some m =>
      [LogEvent.sendSingleFailed
        (cfg.log_except "Failed to send media file:" m)])

/-- Python `media["media"].replace("attach://", "")` followed by
`os.path.basename`, and the dict comprehension building
`current_files_data` for one chunk (lines 260–269). -/
def currentFilesData (env : Env) (filesData : List (String × Nat))
    (chunk : List MediaDesc) : List (String × Nat) :=
  chunk.foldl
    (fun acc d =>
      let nm := env.basename (stringReplace d.media "attach://" "")
      match lookupA filesData nm with
      | some h => insertReplace acc nm h
      | none => acc)
    []

/-- Embedding of `media_group[i : i + 10]` for `i in range(0, len(media_group), 10)`
(fuelled like `pyReplaceFuel`; `fuel = l.length` always suffices). -/
def chunksAux : Nat → List α → List (List α)
  | _, [] => []
  | 0, l => [l]
  | fuel + 1, x :: xs => (x :: xs).take 10 :: chunksAux fuel ((x :: xs).drop 10)

/-- The batches of at most 10 descriptors, in order. -/
def chunksOf10 (l : List α) : List (List α) :=
  chunksAux l.length l

/-- The `else` (grouped) branch of `send_media` (lines 250–274): one
`_send_media_group` call per chunk, each preceded by the per-batch info
log; batch `k` is the `(idx + k)`-th main-thread post. -/
def groupLoop (cfg : SendTg) (env : Env) (nf : Nat → Option String)
    (chat : String) (filesData : List (String × Nat)) :
    List (List MediaDesc) → Nat → List Request × List LogEvent
  | [], _ => ([], [])
  | c :: cs, idx =>
    let rl := SendTg._send_media_group cfg nf idx chat c
      (currentFilesData env filesData c)
    let rest := groupLoop cfg env nf chat filesData cs (idx + 1)
    (rl.1 :: rest.1,
      LogEvent.sendingGroupNum (idx + 1) c.length :: rl.2 ++ rest.2)

/-- The `if no_group:` branch of `send_media` (lines 235–249): one
`_send_single_media` call per `media_group` item whose stripped attachment
name is a key of `files_data` (items failing that test are silently
skipped and consume no post). -/
def singleLoop (cfg : SendTg) (nf : Nat → Option String) (chat : String)
    (caption : Option String) (rm : Option (String × String))
    (spoiler : Bool) (filesData : List (String × Nat)) :
    List MediaDesc → Nat → List Request × List LogEvent
  | [], _ => ([], [])
  | d :: ds, idx =>
    let nm := stringReplace d.media "attach://" ""
    match lookupA filesData nm with
    | some h =>
      let rl := SendTg._send_single_media cfg nf idx chat d nm h caption rm
        spoiler
      let rest := singleLoop cfg nf chat caption rm spoiler filesData ds
        (idx + 1)
      (rl.1 :: rest.1, rl.2 ++ rest.2)
    | none => singleLoop cfg nf chat caption rm spoiler filesData ds idx

/-- Everything observable about one `send_media` call: the main-thread
requests in order, the handles opened, the handles closed by the time the
call returns, and the log events. -/
structure SendResult where
  requests : List Request
  opened : List Nat
  closed : List Nat
  logs : List LogEvent
deriving DecidableEq, Repr

/-- Embedding of `SendTg.send_media` (lines 169–280).  The early `return` in the
document branch happens inside the `for` loop, *before* the
`try/finally`, so on that path only the document's own `with`-scoped
handle is closed; on the normal paths the `finally` closes exactly the
values of `files_data`. -/
def SendTg.send_media (cfg : SendTg) (env : Env) (nf : Nat → Option String)
    (chat_id : String) (media_paths : List String) (caption : Option String)
    (as_file no_group : Bool) (button_text button_url : Option String)
    (spoiler : Bool) : SendResult :=
  let rm := SendTg._create_reply_markup button_text button_url
  let res := processPaths env as_file caption spoiler media_paths ⟨[], [], 0, []⟩
  match res.2.1 with
  | some p =>
    let dr := SendTg._send_document cfg nf 0 chat_id p caption rm.1
    { requests := [dr.1],
      opened := res.1.opened ++ [res.1.nextHandle],
      closed := [res.1.nextHandle],
      logs := rm.2 ++ res.2.2 ++ dr.2 }
  | none =>
    if no_group then
      let sl := singleLoop cfg nf chat_id caption rm.1 spoiler
        res.1.filesData res.1.mediaGroup 0
      { requests := sl.1,
        opened := res.1.opened,
        closed := res.1.filesData.map Prod.snd,
        logs := rm.2 ++ res.2.2 ++ sl.2 }
    else
      let gl := groupLoop cfg env nf chat_id res.1.filesData
        (chunksOf10 res.1.mediaGroup) 0
      { requests := gl.1,
        opened := res.1.opened,
        closed := res.1.filesData.map Prod.snd,
        logs := rm.2 ++ res.2.2 ++ LogEvent.sendingInGroups :: gl.2 }

/-- Characterisation of the `media_group` built by `processPaths` over
paths that all exist and all classify as non-documents: one descriptor per
path, in order; the flag records whether `media_group` was empty when the
head path was processed (so whether the head descriptor receives the
caption argument rather than `""`). -/
def goodDescs (env : Env) (caption : Option String) (spoiler : Bool) :
    Bool → List String → List MediaDesc
  | _, [] => []
  | isFirst, p :: ps =>
    ⟨SendTg._media_type (env.mime p), "attach://" ++ env.basename p,
      (if isFirst then caption else some ""), spoiler⟩
      :: goodDescs env caption spoiler false ps

/-- Characterisation of the `files_data` dict built by `processPaths` over
all-good paths: successive insert-or-replace of `(basename, handle)`. -/
def goodFiles (env : Env) :
    List (String × Nat) → Nat → List String → List (String × Nat)
  | fd, _, [] => fd
  | fd, n, p :: ps => goodFiles env (insertReplace fd (env.basename p) n) (n + 1) ps

/-- The handles `n, n+1, …, n+k-1` in order. -/
def handlesFrom : Nat → Nat → List Nat
  | _, 0 => []
  | n, k + 1 => n :: handlesFrom (n + 1) k

/-- The slice of `argparse` output `SendTg.run` consumes. -/
structure RunArgs where
  message : Option String
  media : Option (List String)
  bot_token : Option String
  chat_id : Option String
  api_url : Option String
  check : Bool
  caption : Option String
  as_file : Bool
  no_group : Bool
  button_text : Option String
  button_url : Option String
  spoiler : Bool

/-- Python truthiness of `args.media` (a `None`-or-list value; an empty
list is falsy). -/
def pyTruthyMedia : Option (List String) → Bool
  | none => false
  | some l => l ≠ []

/-- How one `SendTg.run` invocation terminates.  `sysExit msg` is Python
`sys.exit(msg)` with a string argument: the message is printed to stderr
and the process exit status is 1 (non-zero). -/
inductive RunOutcome
  | sysExit (msg : String)
  | didCheck
  | sentMedia (r : SendResult)
  | sentMessage
  | raisedValueError (msg : String)
deriving Repr

/-- Embedding of `SendTg.run` (lines 399–467). -/
def SendTg.run (cfg : SendTg) (env : Env) (nf : Nat → Option String)
    (a : RunArgs) : RunOutcome :=
  if pyTruthy a.message = false ∧ pyTruthyMedia a.media = false then
    if a.check then RunOutcome.didCheck
    else RunOutcome.sysExit "No message or media provided, use -h/--help for help."
  else if pyTruthyMedia a.media then
    RunOutcome.sentMedia
      (cfg.send_media env nf cfg.chat_id (a.media.getD []) a.caption
        a.as_file a.no_group a.button_text a.button_url a.spoiler)
  else if pyTruthy a.message then
    RunOutcome.sentMessage
  else
    RunOutcome.raisedValueError "No message or media provided."

/-! ### Concrete fixtures used by counterexamples and witnesses -/

/-- A filesystem on which every path exists and is a JPEG image. -/
def envAllJpeg : Env :=
  { isFile := fun _ => true
    mime := fun _ => some "image/jpeg"
    basename := fun p => p }

/-- A filesystem on which every path exists; `"b.bin"` has no guessable
mime type (→ document), everything else is a JPEG image. -/
def envMixed : Env :=
  { isFile := fun _ => true
    mime := fun p => if p = "b.bin" then none else some "image/jpeg"
    basename := fun p => p }

/-- A filesystem on which `"gone.jpg"` does not exist and every other path
is an existing JPEG image. -/
def envMissing : Env :=
  { isFile := fun p => p ≠ "gone.jpg"
    mime := fun _ => some "image/jpeg"
    basename := fun p => p }

/-- A resolved configuration with an ordinary token. -/
def cfgA : SendTg := ⟨none, "TOKEN", "7"⟩

/-- A resolved configuration whose (adversarial) bot token is `"DRE"`. -/
def cfgDre : SendTg := ⟨none, "DRE", "7"⟩

/-- A network on which every request succeeds. -/
def nfOk : Nat → Option String := fun _ => none

/-- A network on which exactly the second main-thread request (index 1)
fails, with exception text `"boom"`. -/
def nfFail1 : Nat → Option String :=
  fun k => if k = 1 then some "boom" else none

/-- Twelve distinct image paths (witness input for the batching claim). -/
def paths12 : List String :=
  ["p01.jpg", "p02.jpg", "p03.jpg", "p04.jpg", "p05.jpg", "p06.jpg",
   "p07.jpg", "p08.jpg", "p09.jpg", "p10.jpg", "p11.jpg", "p12.jpg"]

/-- Eleven distinct image paths (witness input for the batch-failure
claim: two batches). -/
def paths11 : List String :=
  ["q01.jpg", "q02.jpg", "q03.jpg", "q04.jpg", "q05.jpg", "q06.jpg",
   "q07.jpg", "q08.jpg", "q09.jpg", "q10.jpg", "q11.jpg"]

/-- A filesystem on which every path exists as a JPEG image and the two
paths `"a/x.jpg"` and `"b/x.jpg"` share the basename `"x.jpg"`. -/
def envDup : Env :=
  { isFile := fun _ => true
    mime := fun _ => some "image/jpeg"
    basename := fun p => if p = "a/x.jpg" ∨ p = "b/x.jpg" then "x.jpg" else p }

/-- CLI arguments with no message, no media and no `--check`. -/
def argsEmpty : RunArgs :=
  { message := none, media := none, bot_token := none, chat_id := none
    api_url := none, check := false, caption := none, as_file := false
    no_group := false, button_text := none, button_url := none
    spoiler := false }

/-! ## Lemmas about the embedded Python string primitives -/

theorem isPrefixOf_ex (tok l : List Char) :
    tok.isPrefixOf l = true ↔ ∃ t, l = tok ++ t := by
  induction tok generalizing l with
  | nil =>
    simp [List.isPrefixOf]
  | cons a as ih =>
    cases l with
    | nil =>
      simp [List.isPrefixOf]
    | cons b bs =>
      simp only [List.isPrefixOf, Bool.and_eq_true, beq_iff_eq, ih,
        List.cons_append, List.cons.injEq]
      constructor
      · rintro ⟨rfl, t, rfl⟩
        exact ⟨t, rfl, rfl⟩
      · rintro ⟨t, rfl, rfl⟩
        exact ⟨rfl, t, rfl⟩

theorem hasSub_of_ne_nil (tok : List Char) (htok : tok ≠ []) :
    hasSub tok [] = false := by
  cases tok with
  | nil => exact absurd rfl htok
  | cons a as => rfl

theorem pyReplaceFuel_no_occ (tok rep : List Char) :
    ∀ (fuel : Nat) (l : List Char), hasSub tok l = false →
      pyReplaceFuel tok rep fuel l = l := by
  intro fuel
  induction fuel with
  | zero =>
    intro l _
    cases l <;> rfl
  | succ n ih =>
    intro l h
    cases l with
    | nil => rfl
    | cons c cs =>
      have h2 : tok.isPrefixOf (c :: cs) = false ∧ hasSub tok cs = false := by
        simpa [hasSub] using h
      rw [pyReplaceFuel, if_neg, ih cs h2.2]
      rintro ⟨hp, -⟩
      simp [h2.1] at hp

theorem splitTokFuel_ne_nil (tok : List Char) (fuel : Nat) (l : List Char) :
    splitTokFuel tok fuel l ≠ [] := by
  cases fuel with
  | zero => cases l <;> simp [splitTokFuel]
  | succ n =>
    cases l with
    | nil => simp [splitTokFuel]
    | cons c cs =>
      rw [splitTokFuel]
      split
      · simp
      · split <;> simp

theorem joinSep_cons2 (sep p q : List Char) (qs : List (List Char)) :
    joinSep sep (p :: q :: qs) = p ++ sep ++ joinSep sep (q :: qs) := rfl

theorem splitTokFuel_head (tok : List Char) :
    ∀ (fuel : Nat) (l p : List Char) (ps : List (List Char)),
      splitTokFuel tok fuel l = p :: ps → ∃ t, l = p ++ t := by
  intro fuel
  induction fuel with
  | zero =>
    intro l p ps h
    cases l with
    | nil =>
      simp only [splitTokFuel, List.cons.injEq] at h
      exact ⟨[], by simp [← h.1]⟩
    | cons c cs =>
      simp only [splitTokFuel, List.cons.injEq] at h
      exact ⟨[], by simp [← h.1]⟩
  | succ n ih =>
    intro l p ps h
    cases l with
    | nil =>
      simp only [splitTokFuel, List.cons.injEq] at h
      exact ⟨[], by simp [← h.1]⟩
    | cons c cs =>
      rw [splitTokFuel] at h
      by_cases hc : tok.isPrefixOf (c :: cs) = true ∧ tok ≠ []
      · rw [if_pos hc] at h
        obtain ⟨h1, -⟩ := List.cons.inj h
        exact ⟨c :: cs, by simp [← h1]⟩
      · rw [if_neg hc] at h
        cases hsp : splitTokFuel tok n cs with
        | nil => exact absurd hsp (splitTokFuel_ne_nil tok n cs)
        | cons q qs =>
          rw [hsp] at h
          obtain ⟨h1, -⟩ := List.cons.inj h
          obtain ⟨t, ht⟩ := ih cs q qs hsp
          exact ⟨t, by rw [← h1, ht]; rfl⟩

theorem pyReplaceFuel_join (tok rep : List Char) (htok : tok ≠ []) :
    ∀ (fuel : Nat) (l : List Char), l.length ≤ fuel →
      pyReplaceFuel tok rep fuel l = joinSep rep (splitTokFuel tok fuel l) := by
  intro fuel
  induction fuel with
  | zero =>
    intro l hl
    have hnil : l = [] := List.length_eq_zero.mp (Nat.le_zero.mp hl)
    subst hnil
    rfl
  | succ n ih =>
    intro l hl
    cases l with
    | nil => rfl
    | cons c cs =>
      have hcs : cs.length ≤ n := by
        simpa using Nat.succ_le_succ_iff.mp (by simpa using hl)
      rw [pyReplaceFuel, splitTokFuel]
      by_cases hc : tok.isPrefixOf (c :: cs) = true ∧ tok ≠ []
      · rw [if_pos hc, if_pos hc]
        have hdl : (cs.drop (tok.length - 1)).length ≤ n := by
          rw [List.length_drop]
          omega
        rw [ih _ hdl]
        cases hsp : splitTokFuel tok n (cs.drop (tok.length - 1)) with
        | nil => exact absurd hsp (splitTokFuel_ne_nil tok n _)
        | cons q qs => rw [joinSep_cons2]; rfl
      · rw [if_neg hc, if_neg hc]
        rw [ih cs hcs]
        cases hsp : splitTokFuel tok n cs with
        | nil => exact absurd hsp (splitTokFuel_ne_nil tok n cs)
        | cons q qs =>
          cases qs with
          | nil => rfl
          | cons q2 qs2 =>
            rw [joinSep_cons2, joinSep_cons2]
            simp

theorem joinSep_splitTokFuel (tok : List Char) (htok : tok ≠ []) :
    ∀ (fuel : Nat) (l : List Char),
      joinSep tok (splitTokFuel tok fuel l) = l := by
  intro fuel
  induction fuel with
  | zero =>
    intro l
    cases l <;> rfl
  | succ n ih =>
    intro l
    cases l with
    | nil => rfl
    | cons c cs =>
      rw [splitTokFuel]
      by_cases hc : tok.isPrefixOf (c :: cs) = true ∧ tok ≠ []
      · rw [if_pos hc]
        obtain ⟨t, ht⟩ := (isPrefixOf_ex tok (c :: cs)).mp hc.1
        have hdrop : cs.drop (tok.length - 1) = t := by
          cases tok with
          | nil => exact absurd rfl htok
          | cons a as =>
            have h2 := List.cons.inj ht
            rw [h2.2]
            simpa using List.drop_left as t
        rw [hdrop]
        cases hsp : splitTokFuel tok n t with
        | nil => exact absurd hsp (splitTokFuel_ne_nil _ n t)
        | cons q qs =>
          rw [joinSep_cons2]
          have := ih t
          rw [hsp] at this
          rw [this, ht]
          simp
      · rw [if_neg hc]
        cases hsp : splitTokFuel tok n cs with
        | nil => exact absurd hsp (splitTokFuel_ne_nil tok n cs)
        | cons q qs =>
          have := ih cs
          rw [hsp] at this
          cases qs with
          | nil =>
            simp only [joinSep] at this ⊢
            rw [this]
          | cons q2 qs2 =>
            rw [joinSep_cons2] at this ⊢
            rw [List.cons_append, List.cons_append, this]

theorem splitTokFuel_no_occ (tok : List Char) (htok : tok ≠ []) :
    ∀ (fuel : Nat) (l : List Char), l.length ≤ fuel →
      ∀ p ∈ splitTokFuel tok fuel l, hasSub tok p = false := by
  intro fuel
  induction fuel with
  | zero =>
    intro l hl p hp
    have hnil : l = [] := List.length_eq_zero.mp (Nat.le_zero.mp hl)
    subst hnil
    simp only [splitTokFuel, List.mem_singleton] at hp
    subst hp
    exact hasSub_of_ne_nil tok htok
  | succ n ih =>
    intro l hl p hp
    cases l with
    | nil =>
      simp only [splitTokFuel, List.mem_singleton] at hp
      subst hp
      exact hasSub_of_ne_nil tok htok
    | cons c cs =>
      have hcs : cs.length ≤ n := by
        simpa using Nat.succ_le_succ_iff.mp (by simpa using hl)
      rw [splitTokFuel] at hp
      by_cases hc : tok.isPrefixOf (c :: cs) = true ∧ tok ≠ []
      · rw [if_pos hc] at hp
        rcases List.mem_cons.mp hp with h1 | h2
        · subst h1
          exact hasSub_of_ne_nil tok htok
        · have hdl : (cs.drop (tok.length - 1)).length ≤ n := by
            rw [List.length_drop]
            omega
          exact ih _ hdl p h2
      · rw [if_neg hc] at hp
        have hpre : tok.isPrefixOf (c :: cs) = false := by
          cases hb : tok.isPrefixOf (c :: cs) with
          | false => rfl
          | true => exact absurd ⟨hb, htok⟩ hc
        cases hsp : splitTokFuel tok n cs with
        | nil => exact absurd hsp (splitTokFuel_ne_nil tok n cs)
        | cons q qs =>
          rw [hsp] at hp
          rcases List.mem_cons.mp hp with h1 | h2
          · subst h1
            have hq : hasSub tok q = false :=
              ih cs hcs q (by rw [hsp]; exact List.mem_cons_self q qs)
            have hqpre : tok.isPrefixOf (c :: q) = false := by
              cases hb : tok.isPrefixOf (c :: q) with
              | false => rfl
              | true =>
                obtain ⟨t, ht⟩ := (isPrefixOf_ex tok (c :: q)).mp hb
                obtain ⟨t2, ht2⟩ := splitTokFuel_head tok n cs q qs hsp
                have : tok.isPrefixOf (c :: cs) = true := by
                  rw [isPrefixOf_ex]
                  exact ⟨t ++ t2, by rw [ht2, ← List.append_assoc, ← ht]; simp⟩
                rw [hpre] at this
                cases this
            simp [hasSub, hqpre, hq]
          · exact ih cs hcs p (by rw [hsp]; exact List.mem_cons_of_mem q h2)

theorem pyReplaceFuel_strip (tok rep l : List Char) (fuel : Nat)
    (htok : tok ≠ []) (h : hasSub tok l = false) :
    pyReplaceFuel tok rep (fuel + 1) (tok ++ l) = rep ++ l := by
  cases tok with
  | nil => exact absurd rfl htok
  | cons a as =>
    rw [List.cons_append, pyReplaceFuel, if_pos]
    · congr 1
      have hdrop : (as ++ l).drop ((a :: as).length - 1) = l := by
        simpa using List.drop_left as l
      rw [hdrop]
      exact pyReplaceFuel_no_occ _ _ _ _ h
    · constructor
      · rw [isPrefixOf_ex]
        exact ⟨l, by simp⟩
      · exact htok

theorem stringReplace_attach (n : String)
    (h : hasSub "attach://".data n.data = false) :
    stringReplace ("attach://" ++ n) "attach://" "" = n := by
  unfold stringReplace
  have hd : ("attach://" ++ n).data = "attach://".data ++ n.data :=
    String.data_append _ _
  have hlen : ("attach://".data ++ n.data).length = (n.data.length + 8) + 1 := by
    simp [List.length_append]
  rw [hd, hlen, pyReplaceFuel_strip _ _ _ _ (by decide) h]
  rfl

/-! ## Lemmas about the batching of grouped uploads -/

theorem chunksAux_flatten :
    ∀ (fuel : Nat) (l : List α), l.length ≤ fuel →
      (chunksAux fuel l).flatten = l := by
  intro fuel
  induction fuel with
  | zero =>
    intro l hl
    have hnil : l = [] := List.length_eq_zero.mp (Nat.le_zero.mp hl)
    subst hnil
    rfl
  | succ n ih =>
    intro l hl
    cases l with
    | nil => rfl
    | cons x xs =>
      rw [chunksAux, List.flatten_cons, ih _ (by simp at hl ⊢; omega)]
      exact List.take_append_drop 10 (x :: xs)

theorem chunksAux_length :
    ∀ (fuel : Nat) (l : List α), l.length ≤ fuel →
      (chunksAux fuel l).length = (l.length + 9) / 10 := by
  intro fuel
  induction fuel with
  | zero =>
    intro l hl
    have hnil : l = [] := List.length_eq_zero.mp (Nat.le_zero.mp hl)
    subst hnil
    simp [chunksAux]
  | succ n ih =>
    intro l hl
    cases l with
    | nil => simp [chunksAux]
    | cons x xs =>
      rw [chunksAux, List.length_cons, ih _ (by simp at hl ⊢; omega)]
      simp only [List.length_drop, List.length_cons]
      omega

theorem chunksAux_le10 :
    ∀ (fuel : Nat) (l : List α), l.length ≤ fuel →
      ∀ c ∈ chunksAux fuel l, c.length ≤ 10 := by
  intro fuel
  induction fuel with
  | zero =>
    intro l hl c hc
    have hnil : l = [] := List.length_eq_zero.mp (Nat.le_zero.mp hl)
    subst hnil
    simp [chunksAux] at hc
  | succ n ih =>
    intro l hl c hc
    cases l with
    | nil => simp [chunksAux] at hc
    | cons x xs =>
      rw [chunksAux] at hc
      rcases List.mem_cons.mp hc with h1 | h2
      · subst h1
        simpa using List.length_take_le 10 (x :: xs)
      · exact ih _ (by simp at hl ⊢; omega) c h2

theorem chunksOf10_flatten (l : List α) : (chunksOf10 l).flatten = l :=
  chunksAux_flatten l.length l (Nat.le_refl _)

theorem chunksOf10_length (l : List α) :
    (chunksOf10 l).length = (l.length + 9) / 10 :=
  chunksAux_length l.length l (Nat.le_refl _)

theorem chunksOf10_le10 (l : List α) :
    ∀ c ∈ chunksOf10 l, c.length ≤ 10 :=
  chunksAux_le10 l.length l (Nat.le_refl _)

/-! ## Lemmas about the path-processing loop -/

theorem goodDescs_length (env : Env) (caption : Option String) (sp : Bool) :
    ∀ (b : Bool) (paths : List String),
      (goodDescs env caption sp b paths).length = paths.length := by
  intro b paths
  induction paths generalizing b with
  | nil => rfl
  | cons p ps ih => simp [goodDescs, ih]

theorem goodDescs_false_map (env : Env) (caption : Option String) (sp : Bool) :
    ∀ (paths : List String),
      goodDescs env caption sp false paths
        = paths.map (fun q =>
            ⟨SendTg._media_type (env.mime q), "attach://" ++ env.basename q,
              some "", sp⟩) := by
  intro paths
  induction paths with
  | nil => rfl
  | cons p ps ih => simp [goodDescs, ih]

theorem processPaths_good (env : Env) (caption : Option String) (sp : Bool) :
    ∀ (paths : List String) (s : LoopState),
      (∀ p ∈ paths, env.isFile p = true ∧
        SendTg._media_type (env.mime p) ≠ MediaType.document) →
      processPaths env false caption sp paths s =
        (⟨s.mediaGroup ++ goodDescs env caption sp s.mediaGroup.isEmpty paths,
          goodFiles env s.filesData s.nextHandle paths,
          s.nextHandle + paths.length,
          s.opened ++ handlesFrom s.nextHandle paths.length⟩, none, []) := by
  intro paths
  induction paths with
  | nil =>
    intro s _
    simp [processPaths, goodDescs, goodFiles, handlesFrom]
  | cons p ps ih =>
    intro s h
    have hp := h p (List.mem_cons_self p ps)
    rw [processPaths]
    rw [if_neg (by simp [hp.1])]
    rw [if_pos (by simp [hp.2])]
    rw [ih _ (fun q hq => h q (List.mem_cons_of_mem p hq))]
    have hne : ∀ d : MediaDesc, (s.mediaGroup ++ [d]).isEmpty = false := by
      intro d
      cases hm : s.mediaGroup <;> rfl
    simp only [hne, goodDescs, goodFiles, handlesFrom, List.length_cons]
    refine congrArg (fun x => (x, none, [])) ?_
    rw [LoopState.mk.injEq]
    exact ⟨by simp [List.append_assoc], rfl, by omega, by simp [List.append_assoc]⟩

theorem processPaths_stop (env : Env) (as_file : Bool) (caption : Option String)
    (sp : Bool) (d : String)
    (hd : env.isFile d = true)
    (hdoc : (if as_file then MediaType.document
             else SendTg._media_type (env.mime d)) = MediaType.document) :
    ∀ (pre : List String) (post : List String) (s : LoopState),
      (∀ q ∈ pre, env.isFile q = false ∨
        (as_file = false ∧ SendTg._media_type (env.mime q) ≠ MediaType.document)) →
      (processPaths env as_file caption sp (pre ++ d :: post) s).2.1 = some d := by
  intro pre
  induction pre with
  | nil =>
    intro post s _
    rw [List.nil_append]
    simp only [processPaths]
    rw [if_neg (by simp [hd]), if_neg (by simp [hdoc])]
  | cons q qs ih =>
    intro post s h
    rw [List.cons_append]
    simp only [processPaths]
    by_cases hf : env.isFile q = false
    · rw [if_pos hf]
      exact ih post s (fun r hr => h r (List.mem_cons_of_mem q hr))
    · rw [if_neg hf]
      rcases h q (List.mem_cons_self q qs) with h1 | h2
      · exact absurd h1 hf
      · rw [if_pos (by simp [h2.1, h2.2])]
        exact ih post _ (fun r hr => h r (List.mem_cons_of_mem q hr))

theorem processPaths_skip_cons (env : Env) (as_file : Bool)
    (caption : Option String) (sp : Bool) (bad : String) (post : List String)
    (s : LoopState) (hbad : env.isFile bad = false) :
    processPaths env as_file caption sp (bad :: post) s
      = ((processPaths env as_file caption sp post s).1,
         (processPaths env as_file caption sp post s).2.1,
         LogEvent.fileNotFound bad
           :: (processPaths env as_file caption sp post s).2.2) := by
  simp only [processPaths]
  rw [if_pos hbad]

theorem processPaths_erase_missing (env : Env) (as_file : Bool)
    (caption : Option String) (sp : Bool) (bad : String)
    (hbad : env.isFile bad = false) :
    ∀ (pre : List String) (post : List String) (s : LoopState),
      (processPaths env as_file caption sp (pre ++ bad :: post) s).1
          = (processPaths env as_file caption sp (pre ++ post) s).1
      ∧ (processPaths env as_file caption sp (pre ++ bad :: post) s).2.1
          = (processPaths env as_file caption sp (pre ++ post) s).2.1 := by
  intro pre
  induction pre with
  | nil =>
    intro post s
    rw [List.nil_append, List.nil_append,
      processPaths_skip_cons env as_file caption sp bad post s hbad]
    exact ⟨rfl, rfl⟩
  | cons q qs ih =>
    intro post s
    rw [List.cons_append, List.cons_append]
    simp only [processPaths]
    by_cases hf : env.isFile q = false
    · rw [if_pos hf, if_pos hf]
      exact ⟨(ih post s).1, (ih post s).2⟩
    · rw [if_neg hf, if_neg hf]
      by_cases h2 : (if as_file then MediaType.document
          else SendTg._media_type (env.mime q)) ≠ MediaType.document
      · rw [if_pos h2, if_pos h2]
        exact ih post _
      · rw [if_neg h2, if_neg h2]
        exact ⟨rfl, rfl⟩

theorem processPaths_missing_logged (env : Env) (as_file : Bool)
    (caption : Option String) (sp : Bool) (bad : String)
    (hbad : env.isFile bad = false) :
    ∀ (pre : List String) (post : List String) (s : LoopState),
      (∀ q ∈ pre, env.isFile q = false ∨
        (as_file = false ∧ SendTg._media_type (env.mime q) ≠ MediaType.document)) →
      LogEvent.fileNotFound bad
        ∈ (processPaths env as_file caption sp (pre ++ bad :: post) s).2.2 := by
  intro pre
  induction pre with
  | nil =>
    intro post s _
    rw [List.nil_append]
    simp only [processPaths]
    rw [if_pos hbad]
    exact List.mem_cons_self _ _
  | cons q qs ih =>
    intro post s h
    rw [List.cons_append]
    simp only [processPaths]
    by_cases hf : env.isFile q = false
    · rw [if_pos hf]
      exact List.mem_cons_of_mem _
        (ih post s (fun r hr => h r (List.mem_cons_of_mem q hr)))
    · rw [if_neg hf]
      rcases h q (List.mem_cons_self q qs) with h1 | h2
      · exact absurd h1 hf
      · rw [if_pos (by simp [h2.1, h2.2])]
        exact ih post _ (fun r hr => h r (List.mem_cons_of_mem q hr))

/-! ## Lemmas about the request loops -/

theorem groupLoop_fst (cfg : SendTg) (env : Env) (nf : Nat → Option String)
    (chat : String) (fd : List (String × Nat)) :
    ∀ (cs : List (List MediaDesc)) (idx : Nat),
      (groupLoop cfg env nf chat fd cs idx).1
        = cs.map (fun c => Request.group chat c (currentFilesData env fd c)) := by
  intro cs
  induction cs with
  | nil => intro idx; rfl
  | cons c cs2 ih =>
    intro idx
    simp [groupLoop, SendTg._send_media_group, ih]

theorem groupLoop_fail_mem (cfg : SendTg) (env : Env) (nf : Nat → Option String)
    (chat : String) (fd : List (String × Nat)) (m : String) :
    ∀ (cs : List (List MediaDesc)) (idx k : Nat),
      k < cs.length → nf (idx + k) = some m →
      LogEvent.sendGroupFailed (cfg.log_except "Failed to send media group:" m)
        ∈ (groupLoop cfg env nf chat fd cs idx).2 := by
  intro cs
  induction cs with
  | nil =>
    intro idx k hk
    simp at hk
  | cons c cs2 ih =>
    intro idx k hk hnf
    cases k with
    | zero =>
      rw [Nat.add_zero] at hnf
      simp [groupLoop, SendTg._send_media_group, hnf]
    | succ k2 =>
      have hmem := ih (idx + 1) k2 (by simpa using hk)
        (by rw [show idx + 1 + k2 = idx + (k2 + 1) from by omega]; exact hnf)
      simp [groupLoop, hmem]

theorem singleLoop_fst_indep (cfg : SendTg) (nf nf2 : Nat → Option String)
    (chat : String) (caption : Option String) (rm : Option (String × String))
    (sp : Bool) (fd : List (String × Nat)) :
    ∀ (ds : List MediaDesc) (idx idx2 : Nat),
      (singleLoop cfg nf chat caption rm sp fd ds idx).1
        = (singleLoop cfg nf2 chat caption rm sp fd ds idx2).1 := by
  intro ds
  induction ds with
  | nil => intro idx idx2; rfl
  | cons d ds2 ih =>
    intro idx idx2
    rw [singleLoop, singleLoop]
    cases lookupA fd (stringReplace d.media "attach://" "") with
    | none => exact ih idx idx2
    | some h => simpa [SendTg._send_single_media] using ih (idx + 1) (idx2 + 1)

/-! ## Lemmas about the files_data dictionary -/

theorem lookupA_insertReplace_self (fd : List (String × Nat)) (k : String) (v : Nat) :
    lookupA (insertReplace fd k v) k = some v := by
  induction fd with
  | nil => simp [insertReplace, lookupA]
  | cons e rest ih =>
    obtain ⟨k1, v1⟩ := e
    by_cases h : k1 = k
    · simp [insertReplace, h, lookupA]
    · simp [insertReplace, h, lookupA, ih]

theorem lookupA_insertReplace_isSome (fd : List (String × Nat)) (k k2 : String)
    (v : Nat) (h : lookupA fd k ≠ none) :
    lookupA (insertReplace fd k2 v) k ≠ none := by
  induction fd with
  | nil => simp [lookupA] at h
  | cons e rest ih =>
    obtain ⟨k1, v1⟩ := e
    by_cases h1 : k1 = k2
    · rw [insertReplace, if_pos h1]
      by_cases h2 : k2 = k
      · simp [lookupA, h2]
      · rw [lookupA, if_neg h2]
        rw [lookupA, if_neg (by rw [h1]; exact h2)] at h
        exact h
    · rw [insertReplace, if_neg h1]
      by_cases h2 : k1 = k
      · simp [lookupA, h2]
      · rw [lookupA, if_neg h2]
        rw [lookupA, if_neg h2] at h
        exact ih h

theorem lookupA_goodFiles_mono (env : Env) :
    ∀ (paths : List String) (fd : List (String × Nat)) (n : Nat) (k : String),
      lookupA fd k ≠ none → lookupA (goodFiles env fd n paths) k ≠ none := by
  intro paths
  induction paths with
  | nil => intro fd n k h; exact h
  | cons p ps ih =>
    intro fd n k h
    exact ih _ _ k (lookupA_insertReplace_isSome fd k (env.basename p) n h)

theorem lookupA_goodFiles_mem (env : Env) :
    ∀ (paths : List String) (fd : List (String × Nat)) (n : Nat) (p : String),
      p ∈ paths → lookupA (goodFiles env fd n paths) (env.basename p) ≠ none := by
  intro paths
  induction paths with
  | nil => intro fd n p h; simp at h
  | cons q qs ih =>
    intro fd n p h
    rcases List.mem_cons.mp h with h1 | h2
    · subst h1
      show lookupA
        (goodFiles env (insertReplace fd (env.basename p) n) (n + 1) qs)
        (env.basename p) ≠ none
      apply lookupA_goodFiles_mono
      rw [lookupA_insertReplace_self]
      simp
    · exact ih _ _ p h2

/-! ## Lemmas about the individual-send loop -/

theorem singleLoop_found (cfg : SendTg) (nf : Nat → Option String)
    (chat : String) (caption : Option String) (rm : Option (String × String))
    (sp : Bool) (fd : List (String × Nat)) :
    ∀ (ds : List MediaDesc) (idx : Nat),
      (∀ d ∈ ds, lookupA fd (stringReplace d.media "attach://" "") ≠ none) →
      (singleLoop cfg nf chat caption rm sp fd ds idx).1.length = ds.length
      ∧ (singleLoop cfg nf chat caption rm sp fd ds idx).1.map Request.fileNameOf
          = ds.map (fun d => stringReplace d.media "attach://" "")
      ∧ ∀ r ∈ (singleLoop cfg nf chat caption rm sp fd ds idx).1,
          ∃ t nm hh, r = Request.single chat t nm hh caption rm sp := by
  intro ds
  induction ds with
  | nil =>
    intro idx _
    exact ⟨rfl, rfl, by simp [singleLoop]⟩
  | cons d ds2 ih =>
    intro idx h
    have hd := h d (List.mem_cons_self d ds2)
    rw [singleLoop]
    cases hl : lookupA fd (stringReplace d.media "attach://" "") with
    | none => exact absurd hl hd
    | some hh =>
      have ihr := ih (idx + 1) (fun e he => h e (List.mem_cons_of_mem d he))
      refine ⟨?_, ?_, ?_⟩
      · simp [SendTg._send_single_media, ihr.1]
      · simp only [SendTg._send_single_media, List.map_cons]
        rw [ihr.2.1]
        rfl
      · intro r hr
        simp only [SendTg._send_single_media, List.mem_cons] at hr
        rcases hr with h1 | h2
        · exact ⟨d.type, _, hh, h1⟩
        · exact ihr.2.2 r h2

theorem goodDescs_media_mem (env : Env) (caption : Option String) (sp : Bool) :
    ∀ (paths : List String) (b : Bool) (d : MediaDesc),
      d ∈ goodDescs env caption sp b paths →
      ∃ p ∈ paths, d.media = "attach://" ++ env.basename p := by
  intro paths
  induction paths with
  | nil =>
    intro b d hd
    simp [goodDescs] at hd
  | cons p ps ih =>
    intro b d hd
    rcases List.mem_cons.mp hd with h1 | h2
    · exact ⟨p, List.mem_cons_self p ps, by rw [h1]⟩
    · obtain ⟨q, hq, hqm⟩ := ih false d h2
      exact ⟨q, List.mem_cons_of_mem p hq, hqm⟩

theorem goodDescs_strip_map (env : Env) (caption : Option String) (sp : Bool) :
    ∀ (paths : List String) (b : Bool),
      (∀ p ∈ paths, hasSub "attach://".data (env.basename p).data = false) →
      (goodDescs env caption sp b paths).map
          (fun d => stringReplace d.media "attach://" "")
        = paths.map env.basename := by
  intro paths
  induction paths with
  | nil => intro b _; rfl
  | cons p ps ih =>
    intro b hstrip
    simp only [goodDescs, List.map_cons]
    rw [show stringReplace ("attach://" ++ env.basename p) "attach://" ""
        = env.basename p from
      stringReplace_attach _ (hstrip p (List.mem_cons_self p ps))]
    rw [ih false (fun q hq => hstrip q (List.mem_cons_of_mem p hq))]

/-! ## Characterisations of the three dispatch branches of send_media -/

theorem send_media_grouped_eq (cfg : SendTg) (env : Env)
    (nf : Nat → Option String) (chat : String) (paths : List String)
    (caption : Option String) (bt bu : Option String) (sp : Bool)
    (hgood : ∀ p ∈ paths, env.isFile p = true ∧
      SendTg._media_type (env.mime p) ≠ MediaType.document) :
    SendTg.send_media cfg env nf chat paths caption false false bt bu sp
      = { requests := (chunksOf10 (goodDescs env caption sp true paths)).map
            (fun c => Request.group chat c
              (currentFilesData env (goodFiles env [] 0 paths) c)),
          opened := handlesFrom 0 paths.length,
          closed := (goodFiles env [] 0 paths).map Prod.snd,
          logs := (SendTg._create_reply_markup bt bu).2
            ++ LogEvent.sendingInGroups
            :: (groupLoop cfg env nf chat (goodFiles env [] 0 paths)
                 (chunksOf10 (goodDescs env caption sp true paths)) 0).2 } := by
  unfold SendTg.send_media
  rw [processPaths_good env caption sp paths _ hgood]
  simp [groupLoop_fst]

theorem send_media_nogroup_eq (cfg : SendTg) (env : Env)
    (nf : Nat → Option String) (chat : String) (paths : List String)
    (caption : Option String) (bt bu : Option String) (sp : Bool)
    (hgood : ∀ p ∈ paths, env.isFile p = true ∧
      SendTg._media_type (env.mime p) ≠ MediaType.document) :
    (SendTg.send_media cfg env nf chat paths caption false true bt bu sp).requests
      = (singleLoop cfg nf chat caption (SendTg._create_reply_markup bt bu).1 sp
          (goodFiles env [] 0 paths) (goodDescs env caption sp true paths) 0).1 := by
  unfold SendTg.send_media
  rw [processPaths_good env caption sp paths _ hgood]
  simp

theorem send_media_doc_eq (cfg : SendTg) (env : Env) (nf : Nat → Option String)
    (chat : String) (paths : List String) (caption : Option String)
    (as_file no_group : Bool) (bt bu : Option String) (sp : Bool) (d : String)
    (hstop : (processPaths env as_file caption sp paths ⟨[], [], 0, []⟩).2.1
      = some d) :
    (SendTg.send_media cfg env nf chat paths caption as_file no_group bt bu
        sp).requests
      = [Request.doc chat d caption (SendTg._create_reply_markup bt bu).1] := by
  simp only [SendTg.send_media]
  rw [hstop]
  rfl

theorem send_media_requests_nf (cfg : SendTg) (env : Env)
    (nf nf2 : Nat → Option String) (chat : String) (paths : List String)
    (caption : Option String) (as_file no_group : Bool)
    (bt bu : Option String) (sp : Bool) :
    (SendTg.send_media cfg env nf chat paths caption as_file no_group bt bu
        sp).requests
      = (SendTg.send_media cfg env nf2 chat paths caption as_file no_group bt
          bu sp).requests := by
  simp only [SendTg.send_media]
  cases hstop : (processPaths env as_file caption sp paths ⟨[], [], 0, []⟩).2.1 with
  | some p => rfl
  | none =>
    by_cases hng : no_group
    · simp only [hng, if_true]
      exact singleLoop_fst_indep cfg nf nf2 chat caption _ sp _ _ 0 0
    · simp only [hng, if_false, Bool.false_eq_true]
      rw [groupLoop_fst, groupLoop_fst]

theorem send_media_erase_missing_requests (cfg : SendTg) (env : Env)
    (nf : Nat → Option String) (chat : String) (pre post : List String)
    (bad : String) (hbad : env.isFile bad = false) (caption : Option String)
    (as_file no_group : Bool) (bt bu : Option String) (sp : Bool) :
    (SendTg.send_media cfg env nf chat (pre ++ bad :: post) caption as_file
        no_group bt bu sp).requests
      = (SendTg.send_media cfg env nf chat (pre ++ post) caption as_file
          no_group bt bu sp).requests := by
  obtain ⟨h1, h2⟩ := processPaths_erase_missing env as_file caption sp bad hbad
    pre post ⟨[], [], 0, []⟩
  simp only [SendTg.send_media]
  rw [h2, h1]
  cases hstop : (processPaths env as_file caption sp (pre ++ post)
      ⟨[], [], 0, []⟩).2.1 with
  | some p => rfl
  | none =>
    by_cases hng : no_group
    · simp only [hng, if_true]
    · simp only [hng, if_false, Bool.false_eq_true]

/-! ## Claim theorems -/

/-- C1: with `asFile = false`, `noGroup = false` and every path an
existing photo/video/audio file, `send_media` issues exactly ⌈N/10⌉
grouped-upload requests, each containing at most 10 descriptors; their
concatenation lists the items in input order, and the caption argument is
attached only to the very first descriptor of the very first group (every
later descriptor carries the empty string instead). -/
theorem send_media_batches_of_ten (cfg : SendTg) (env : Env)
    (nf : Nat → Option String) (chat : String) (paths : List String)
    (caption : Option String) (bt bu : Option String) (sp : Bool)
    (hgood : ∀ p ∈ paths, env.isFile p = true ∧
      SendTg._media_type (env.mime p) ≠ MediaType.document) :
    (SendTg.send_media cfg env nf chat paths caption false false bt bu
        sp).requests.length = (paths.length + 9) / 10
    ∧ (∀ req ∈ (SendTg.send_media cfg env nf chat paths caption false false
          bt bu sp).requests,
        (∃ m f, req = Request.group chat m f)
        ∧ (Request.mediaList req).length ≤ 10)
    ∧ ((SendTg.send_media cfg env nf chat paths caption false false bt bu
          sp).requests.map Request.mediaList).flatten
        = (match paths with
           | [] => []
           | p :: ps =>
             (⟨SendTg._media_type (env.mime p),
                "attach://" ++ env.basename p, caption, sp⟩ : MediaDesc)
               :: ps.map (fun q =>
                 ⟨SendTg._media_type (env.mime q),
                   "attach://" ++ env.basename q, some "", sp⟩)) := by
  rw [send_media_grouped_eq cfg env nf chat paths caption bt bu sp hgood]
  refine ⟨?_, ?_, ?_⟩
  · simp [chunksOf10_length, goodDescs_length]
  · intro req hreq
    simp only [List.mem_map] at hreq
    obtain ⟨c, hc, rfl⟩ := hreq
    refine ⟨⟨c, _, rfl⟩, ?_⟩
    simpa [Request.mediaList] using chunksOf10_le10 _ c hc
  · rw [List.map_map]
    have hmap : (Request.mediaList ∘ fun c =>
        Request.group chat c
          (currentFilesData env (goodFiles env [] 0 paths) c))
        = id := by
      funext c
      rfl
    rw [hmap, List.map_id, chunksOf10_flatten]
    cases paths with
    | nil => rfl
    | cons p ps => simp [goodDescs, goodDescs_false_map]

/-- Witness for C1: twelve existing JPEG paths with a caption produce
exactly `(12 + 9) / 10 = 2` grouped requests. -/
theorem send_media_batches_of_ten_witness :
    (∀ p ∈ paths12, envAllJpeg.isFile p = true ∧
      SendTg._media_type (envAllJpeg.mime p) ≠ MediaType.document)
    ∧ (SendTg.send_media cfgA envAllJpeg nfOk "7" paths12 (some "cap") false
        false none none false).requests.length = (paths12.length + 9) / 10 :=
  ⟨by decide, (send_media_batches_of_ten cfgA envAllJpeg nfOk "7" paths12
    (some "cap") none none false (by decide)).1⟩

/-- C2: the first existing path classified as a document — because
`asFile` is true (which classifies every item as a document) or because
its mime type is not image/video/audio — is sent as a single document
request carrying the caption and the reply markup, and it is the only
request the whole call issues: no further file is processed or sent. -/
theorem send_media_document_short_circuit (cfg : SendTg) (env : Env)
    (nf : Nat → Option String) (chat : String) (pre post : List String)
    (d : String) (caption : Option String) (as_file no_group : Bool)
    (bt bu : Option String) (sp : Bool)
    (hd : env.isFile d = true)
    (hdoc : as_file = true
      ∨ SendTg._media_type (env.mime d) = MediaType.document)
    (hpre : ∀ q ∈ pre, env.isFile q = false ∨
      (as_file = false ∧ SendTg._media_type (env.mime q) ≠ MediaType.document)) :
    (SendTg.send_media cfg env nf chat (pre ++ d :: post) caption as_file
        no_group bt bu sp).requests
      = [Request.doc chat d caption (SendTg._create_reply_markup bt bu).1] := by
  apply send_media_doc_eq
  apply processPaths_stop env as_file caption sp d hd _ pre post _ hpre
  rcases hdoc with h | h
  · rw [if_pos h]
  · by_cases ha : as_file = true
    · rw [if_pos ha]
    · rw [if_neg ha]
      exact h

/-- Witness for C2: `["a.jpg", "b.bin", "c.jpg"]` with `"b.bin"` of
unknown mime type yields exactly one `sendDocument` request for `"b.bin"`
and nothing else. -/
theorem send_media_document_short_circuit_witness :
    (envMixed.isFile "b.bin" = true
      ∧ SendTg._media_type (envMixed.mime "b.bin") = MediaType.document)
    ∧ (SendTg.send_media cfgA envMixed nfOk "7"
        (["a.jpg"] ++ "b.bin" :: ["c.jpg"]) (some "cap") false false none
        none false).requests
      = [Request.doc "7" "b.bin" (some "cap")
          (SendTg._create_reply_markup none none).1] :=
  ⟨by decide, send_media_document_short_circuit cfgA envMixed nfOk "7"
    ["a.jpg"] ["c.jpg"] "b.bin" (some "cap") false false none none false
    (by decide) (Or.inr (by decide)) (by decide)⟩

/-- C3 (code bug): on `["a.jpg", "b.bin"]` — an image followed by a
document-classified file — the dispatcher opens handle 0 for `a.jpg`,
then hits `b.bin` and returns from inside the `for` loop, *before* the
`try/finally` block; only the document's own `with`-scoped handle 1 is
closed and handle 0 is never closed, contradicting both the spec and the
function's own docstring ("Media files are closed after sending"). -/
theorem send_media_handle_leak_on_document :
    (SendTg.send_media cfgA envMixed nfOk "7" ["a.jpg", "b.bin"] none false
        false none none false).opened = [0, 1]
    ∧ (SendTg.send_media cfgA envMixed nfOk "7" ["a.jpg", "b.bin"] none false
        false none none false).closed = [1]
    ∧ 0 ∉ (SendTg.send_media cfgA envMixed nfOk "7" ["a.jpg", "b.bin"] none
        false false none none false).closed :=
  ⟨by decide, by decide, by decide⟩

/-- C4 counterexample: with two existing photos and caption `"hi"`, the
second descriptor of the grouped request — an item with no caption —
carries the caption key with the empty string (`some ""`) rather than
omitting the key (`none`): `_send_media_group` only deletes the key when
the stored value is Python `None`, and the loop stores `""` for every
item after the first. -/
theorem send_media_caption_key_not_omitted :
    ((SendTg.send_media cfgA envAllJpeg nfOk "7" ["a.jpg", "c.jpg"]
        (some "hi") false false none none false).requests.map
          Request.mediaList).flatten.map MediaDesc.caption
      = [some "hi", some ""]
    ∧ (some "" : Option String) ≠ none :=
  ⟨by decide, by decide⟩

/-- C4 amended: descriptor fields are type, media-reference, caption and
has_spoiler; in the serialized media array the caption key is omitted
exactly when its stored value is Python `None` — which can only be the
first descriptor of the first group, when the caption argument is `None`.
Every descriptor after the first carries the caption key with the empty
string; the key is not omitted for items without a caption. -/
theorem send_media_group_caption_fields (cfg : SendTg) (env : Env)
    (nf : Nat → Option String) (chat : String) (paths : List String)
    (caption : Option String) (bt bu : Option String) (sp : Bool)
    (hgood : ∀ p ∈ paths, env.isFile p = true ∧
      SendTg._media_type (env.mime p) ≠ MediaType.document) :
    ((SendTg.send_media cfg env nf chat paths caption false false bt bu
        sp).requests.map Request.mediaList).flatten.map MediaDesc.caption
      = (match paths with
         | [] => []
         | _ :: ps => caption :: ps.map (fun _ => (some "" : Option String))) := by
  rw [send_media_grouped_eq cfg env nf chat paths caption bt bu sp hgood]
  rw [List.map_map]
  have hmap : (Request.mediaList ∘ fun c =>
      Request.group chat c
        (currentFilesData env (goodFiles env [] 0 paths) c))
      = id := by
    funext c
    rfl
  rw [hmap, List.map_id, chunksOf10_flatten]
  cases paths with
  | nil => rfl
  | cons p ps =>
    rw [show goodDescs env caption sp true (p :: ps)
        = (⟨SendTg._media_type (env.mime p), "attach://" ++ env.basename p,
            caption, sp⟩ : MediaDesc) :: goodDescs env caption sp false ps
      from rfl]
    rw [goodDescs_false_map, List.map_cons, List.map_map]
    rfl

/-- Witness for the amended C4: two photos with caption `"hi"` yield
caption fields `[some "hi", some ""]`. -/
theorem send_media_group_caption_fields_witness :
    (∀ p ∈ ["a.jpg", "c.jpg"], envAllJpeg.isFile p = true ∧
      SendTg._media_type (envAllJpeg.mime p) ≠ MediaType.document)
    ∧ ((SendTg.send_media cfgA envAllJpeg nfOk "7" ["a.jpg", "c.jpg"]
        (some "hi") false false none none false).requests.map
          Request.mediaList).flatten.map MediaDesc.caption
      = some "hi" :: ["c.jpg"].map (fun _ => (some "" : Option String)) :=
  ⟨by decide, send_media_group_caption_fields cfgA envAllJpeg nfOk "7"
    ["a.jpg", "c.jpg"] (some "hi") none none false (by decide)⟩

/-- C5 counterexample: with `noGroup = true`, two existing photos and
caption `"hi"`, *both* individual requests carry the full caption — the
code passes the whole `caption` argument to `_send_single_media` for
every item, so subsequent requests do not go captionless. -/
theorem send_media_nogroup_caption_repeated :
    (SendTg.send_media cfgA envAllJpeg nfOk "7" ["a.jpg", "c.jpg"]
        (some "hi") false true none none false).requests.map
          Request.captionOf
      = [some "hi", some "hi"]
    ∧ (some "hi" : Option String) ≠ some ""
    ∧ (some "hi" : Option String) ≠ none :=
  ⟨by decide, by decide, by decide⟩

/-- C5 amended: with `noGroup = true` every existing non-document item is
sent as its own individual single-media request, in input order, and
every such request (not only the first) carries the full caption argument
in its form data. -/
theorem send_media_nogroup_individual (cfg : SendTg) (env : Env)
    (nf : Nat → Option String) (chat : String) (paths : List String)
    (caption : Option String) (bt bu : Option String) (sp : Bool)
    (hgood : ∀ p ∈ paths, env.isFile p = true ∧
      SendTg._media_type (env.mime p) ≠ MediaType.document)
    (hstrip : ∀ p ∈ paths,
      hasSub "attach://".data (env.basename p).data = false) :
    (SendTg.send_media cfg env nf chat paths caption false true bt bu
        sp).requests.length = paths.length
    ∧ (SendTg.send_media cfg env nf chat paths caption false true bt bu
        sp).requests.map Request.fileNameOf = paths.map env.basename
    ∧ ∀ req ∈ (SendTg.send_media cfg env nf chat paths caption false true bt
        bu sp).requests,
        ∃ t nm hh, req = Request.single chat t nm hh caption
          (SendTg._create_reply_markup bt bu).1 sp := by
  have hfind : ∀ d ∈ goodDescs env caption sp true paths,
      lookupA (goodFiles env [] 0 paths)
        (stringReplace d.media "attach://" "") ≠ none := by
    intro d hd
    obtain ⟨p, hp, hm⟩ := goodDescs_media_mem env caption sp paths true d hd
    rw [hm, stringReplace_attach _ (hstrip p hp)]
    exact lookupA_goodFiles_mem env paths [] 0 p hp
  have hsl := singleLoop_found cfg nf chat caption
    (SendTg._create_reply_markup bt bu).1 sp (goodFiles env [] 0 paths)
    (goodDescs env caption sp true paths) 0 hfind
  rw [send_media_nogroup_eq cfg env nf chat paths caption bt bu sp hgood]
  refine ⟨?_, ?_, hsl.2.2⟩
  · rw [hsl.1, goodDescs_length]
  · rw [hsl.2.1, goodDescs_strip_map env caption sp paths true hstrip]

/-- Witness for the amended C5: two photos yield two individual requests,
named after the two files. -/
theorem send_media_nogroup_individual_witness :
    (∀ p ∈ ["a.jpg", "c.jpg"],
      hasSub "attach://".data (envAllJpeg.basename p).data = false)
    ∧ (SendTg.send_media cfgA envAllJpeg nfOk "7" ["a.jpg", "c.jpg"]
        (some "hi") false true none none false).requests.map
          Request.fileNameOf
      = ["a.jpg", "c.jpg"].map envAllJpeg.basename :=
  ⟨by decide, (send_media_nogroup_individual cfgA envAllJpeg nfOk "7"
    ["a.jpg", "c.jpg"] (some "hi") none none false (by decide)
    (by decide)).2.1⟩

/-- C6: with multiple batches, the list of attempted requests does not
depend on the network oracle at all — a transport failure on one grouped
request (here batch 2, request index 1) is caught inside
`_send_media_group`, logged through `log_except`, and every one of the
⌈N/10⌉ batches is still attempted. -/
theorem send_media_failure_continues_batches (cfg : SendTg) (env : Env)
    (nf : Nat → Option String) (chat : String) (paths : List String)
    (caption : Option String) (bt bu : Option String) (sp : Bool) (m : String)
    (hgood : ∀ p ∈ paths, env.isFile p = true ∧
      SendTg._media_type (env.mime p) ≠ MediaType.document)
    (hfail : nf 1 = some m) (hlen : 10 < paths.length) :
    (SendTg.send_media cfg env nf chat paths caption false false bt bu
        sp).requests.length = (paths.length + 9) / 10
    ∧ LogEvent.sendGroupFailed
        (cfg.log_except "Failed to send media group:" m)
      ∈ (SendTg.send_media cfg env nf chat paths caption false false bt bu
          sp).logs
    ∧ ∀ nf2 : Nat → Option String,
        (SendTg.send_media cfg env nf2 chat paths caption false false bt bu
          sp).requests
        = (SendTg.send_media cfg env nf chat paths caption false false bt bu
            sp).requests := by
  refine ⟨?_, ?_, fun nf2 => send_media_requests_nf cfg env nf2 nf chat paths
    caption false false bt bu sp⟩
  · rw [send_media_grouped_eq cfg env nf chat paths caption bt bu sp hgood]
    simp [chunksOf10_length, goodDescs_length]
  · rw [send_media_grouped_eq cfg env nf chat paths caption bt bu sp hgood]
    have hk : 1 < (chunksOf10 (goodDescs env caption sp true paths)).length := by
      rw [chunksOf10_length, goodDescs_length]
      omega
    have hmem := groupLoop_fail_mem cfg env nf chat (goodFiles env [] 0 paths)
      m (chunksOf10 (goodDescs env caption sp true paths)) 0 1 hk
      (by simpa using hfail)
    simp [hmem]

/-- Witness for C6: eleven photos make two batches; the second request
fails with `"boom"`, yet both batches are attempted and the failure is
logged redacted. -/
theorem send_media_failure_continues_batches_witness :
    (nfFail1 1 = some "boom" ∧ 10 < paths11.length)
    ∧ (SendTg.send_media cfgA envAllJpeg nfFail1 "7" paths11 none false false
        none none false).requests.length = (paths11.length + 9) / 10 :=
  ⟨⟨by decide, by decide⟩, (send_media_failure_continues_batches cfgA
    envAllJpeg nfFail1 "7" paths11 none none none false "boom" (by decide)
    (by decide) (by decide)).1⟩

theorem string_eq_empty_of_data (s : String) (h : s.data = []) : s = "" := by
  cases s with
  | mk d => exact congrArg String.mk h

/-- C7 counterexample: with the (adversarial) bot token `"DRE"` and an
exception whose text is `"DREDRE"`, `log_except` produces
`"Failed to send media: REDACTEDREDACTED"` — and `"DRE"` occurs literally
inside that logged text, re-formed across the boundary of the two
inserted `REDACTED` markers.  So "the token never appears literally in
any logged error output" is false as stated. -/
theorem log_except_token_reappears :
    SendTg.log_except cfgDre "Failed to send media:" "DREDRE"
      = "Failed to send media: REDACTEDREDACTED"
    ∧ hasSub cfgDre.bot_token.data
        (SendTg.log_except cfgDre "Failed to send media:" "DREDRE").data
      = true :=
  ⟨by decide, by decide⟩

/-- C7 amended: `log_except` replaces every occurrence of the bot token
in the exception text, leftmost-first and non-overlapping, with
`REDACTED` before logging: the logged text is the message prefix, a
space, and the `REDACTED`-join of the token-split segments of the
exception text; those segments reconstruct the exception text when
re-joined with the token, and none of them contains the token.  (The
token can therefore reappear in the output only by straddling the
boundary of an inserted `REDACTED`, as in the counterexample.) -/
theorem log_except_redacts_every_occurrence (cfg : SendTg) (msgs e : String)
    (htok : cfg.bot_token ≠ "") :
    (SendTg.log_except cfg msgs e).data
        = msgs.data ++ ' ' :: joinSep "REDACTED".data
            (splitTok cfg.bot_token.data e.data)
    ∧ joinSep cfg.bot_token.data (splitTok cfg.bot_token.data e.data)
        = e.data
    ∧ ∀ p ∈ splitTok cfg.bot_token.data e.data,
        hasSub cfg.bot_token.data p = false := by
  have htd : cfg.bot_token.data ≠ [] := by
    intro h
    exact htok (string_eq_empty_of_data _ h)
  refine ⟨?_, ?_, ?_⟩
  · simp only [SendTg.log_except, stringReplace, String.data_append]
    rw [pyReplaceFuel_join _ _ htd e.data.length e.data (Nat.le_refl _)]
    rw [splitTok]
    rw [List.append_assoc]
    rfl
  · rw [splitTok]
    exact joinSep_splitTokFuel _ htd e.data.length e.data
  · rw [splitTok]
    exact splitTokFuel_no_occ _ htd e.data.length e.data (Nat.le_refl _)

/-- Witness for the amended C7: token `"T"`, message `"aTb"`. -/
theorem log_except_redacts_every_occurrence_witness :
    (SendTg.log_except ⟨none, "T", "7"⟩ "Failed to send media:" "aTb").data
        = "Failed to send media:".data ++ ' ' :: joinSep "REDACTED".data
            (splitTok (SendTg.mk none "T" "7").bot_token.data "aTb".data)
    ∧ joinSep (SendTg.mk none "T" "7").bot_token.data
        (splitTok (SendTg.mk none "T" "7").bot_token.data "aTb".data)
        = "aTb".data
    ∧ ∀ p ∈ splitTok (SendTg.mk none "T" "7").bot_token.data "aTb".data,
        hasSub (SendTg.mk none "T" "7").bot_token.data p = false :=
  log_except_redacts_every_occurrence ⟨none, "T", "7"⟩
    "Failed to send media:" "aTb" (by decide)

/-- C8: a path that does not exist on the filesystem is skipped — the
call's requests are exactly those of the same call without that path —
and a file-not-found error is logged for it; all remaining valid paths
are still processed. -/
theorem send_media_skips_missing (cfg : SendTg) (env : Env)
    (nf : Nat → Option String) (chat : String) (pre post : List String)
    (bad : String) (caption : Option String) (as_file no_group : Bool)
    (bt bu : Option String) (sp : Bool)
    (hbad : env.isFile bad = false)
    (hpre : ∀ q ∈ pre, env.isFile q = false ∨
      (as_file = false ∧ SendTg._media_type (env.mime q) ≠ MediaType.document)) :
    (SendTg.send_media cfg env nf chat (pre ++ bad :: post) caption as_file
        no_group bt bu sp).requests
      = (SendTg.send_media cfg env nf chat (pre ++ post) caption as_file
          no_group bt bu sp).requests
    ∧ LogEvent.fileNotFound bad
      ∈ (SendTg.send_media cfg env nf chat (pre ++ bad :: post) caption
          as_file no_group bt bu sp).logs := by
  refine ⟨send_media_erase_missing_requests cfg env nf chat pre post bad hbad
    caption as_file no_group bt bu sp, ?_⟩
  have hmem := processPaths_missing_logged env as_file caption sp bad hbad pre
    post ⟨[], [], 0, []⟩ hpre
  simp only [SendTg.send_media]
  cases hstop : (processPaths env as_file caption sp (pre ++ bad :: post)
      ⟨[], [], 0, []⟩).2.1 with
  | some p =>
    simp [hmem]
  | none =>
    by_cases hng : no_group = true
    · simp [hng, hmem]
    · simp [hng, hmem]

/-- Witness for C8: skipping the missing `"gone.jpg"` leaves the requests
of `["a.jpg"]` unchanged, and the miss is logged. -/
theorem send_media_skips_missing_witness :
    (envMissing.isFile "gone.jpg" = false)
    ∧ ((SendTg.send_media cfgA envMissing nfOk "7"
          ([] ++ "gone.jpg" :: ["a.jpg"]) none false false none none
          false).requests
        = (SendTg.send_media cfgA envMissing nfOk "7" ([] ++ ["a.jpg"]) none
            false false none none false).requests
      ∧ LogEvent.fileNotFound "gone.jpg"
        ∈ (SendTg.send_media cfgA envMissing nfOk "7"
            ([] ++ "gone.jpg" :: ["a.jpg"]) none false false none none
            false).logs) :=
  ⟨by decide, send_media_skips_missing cfgA envMissing nfOk "7" [] ["a.jpg"]
    "gone.jpg" none false false none none false (by decide) (by decide)⟩

/-- C9: (a) when neither a message nor media is supplied and `--check` is
not set, `run` terminates through `sys.exit` with a terminating message
(Python `sys.exit(str)` exits with status 1, non-zero); (b) bot-token
resolution failing at startup (argument and default both falsy) raises
the fatal configuration error `ValueError("Bot token is missing!")` from
`__init__`; (c) likewise for the chat id. -/
theorem run_exit_and_config_errors (cfg : SendTg) (env : Env)
    (nf : Nat → Option String) (a : RunArgs)
    (hmsg : pyTruthy a.message = false)
    (hmedia : pyTruthyMedia a.media = false)
    (hcheck : a.check = false) :
    SendTg.run cfg env nf a
        = RunOutcome.sysExit "No message or media provided, use -h/--help for help."
    ∧ (∀ apiA tokA chatA dApi dTok dChat : Option String,
        pyTruthy (pyOr tokA dTok) = false →
        SendTg.init apiA tokA chatA dApi dTok dChat
          = Except.error "Bot token is missing!")
    ∧ (∀ apiA tokA chatA dApi dTok dChat : Option String,
        pyTruthy (pyOr tokA dTok) = true →
        pyTruthy (pyOr chatA dChat) = false →
        SendTg.init apiA tokA chatA dApi dTok dChat
          = Except.error "Chat ID is missing!") := by
  refine ⟨?_, ?_, ?_⟩
  · simp [SendTg.run, hmsg, hmedia, hcheck]
  · intro apiA tokA chatA dApi dTok dChat ht
    simp [SendTg.init, ht]
  · intro apiA tokA chatA dApi dTok dChat ht hc
    simp [SendTg.init, ht, hc]

/-- Witness for C9: empty CLI arguments exit with the terminating
message, and fully-missing credentials raise the two startup errors. -/
theorem run_exit_and_config_errors_witness :
    SendTg.run cfgA envAllJpeg nfOk argsEmpty
        = RunOutcome.sysExit "No message or media provided, use -h/--help for help."
    ∧ SendTg.init none none none none none none
        = Except.error "Bot token is missing!"
    ∧ SendTg.init none (some "t") none none none none
        = Except.error "Chat ID is missing!" := by
  have h := run_exit_and_config_errors cfgA envAllJpeg nfOk argsEmpty
    (by decide) (by decide) (by decide)
  exact ⟨h.1, h.2.1 none none none none none none (by decide),
    h.2.2 none (some "t") none none none none (by decide) (by decide)⟩

/-- C10: two distinct existing non-document paths sharing one basename
collide in the basename-keyed `files_data` dict: handle 0 (the first
file) is opened and then displaced by handle 1 (the second file), the
dict retains only `(basename, 1)`, so handle 0 is never closed; both
media descriptors reference the same single attachment name, and the
grouped request uploads only the later handle. -/
theorem send_media_duplicate_basename_collision (cfg : SendTg) (env : Env)
    (nf : Nat → Option String) (chat : String) (p1 p2 n : String)
    (caption : Option String) (bt bu : Option String) (sp : Bool)
    (hne : p1 ≠ p2)
    (h1 : env.isFile p1 = true) (h2 : env.isFile p2 = true)
    (hm1 : SendTg._media_type (env.mime p1) ≠ MediaType.document)
    (hm2 : SendTg._media_type (env.mime p2) ≠ MediaType.document)
    (hb1 : env.basename p1 = n) (hb2 : env.basename p2 = n)
    (hbn : env.basename n = n)
    (hsub : hasSub "attach://".data n.data = false) :
    (SendTg.send_media cfg env nf chat [p1, p2] caption false false bt bu
        sp).opened = [0, 1]
    ∧ (SendTg.send_media cfg env nf chat [p1, p2] caption false false bt bu
        sp).closed = [1]
    ∧ 0 ∉ (SendTg.send_media cfg env nf chat [p1, p2] caption false false bt
        bu sp).closed
    ∧ (SendTg.send_media cfg env nf chat [p1, p2] caption false false bt bu
        sp).requests
      = [Request.group chat
          [⟨SendTg._media_type (env.mime p1), "attach://" ++ n, caption, sp⟩,
           ⟨SendTg._media_type (env.mime p2), "attach://" ++ n, some "", sp⟩]
          [(n, 1)]] := by
  have hgood : ∀ p ∈ [p1, p2], env.isFile p = true ∧
      SendTg._media_type (env.mime p) ≠ MediaType.document := by
    intro p hp
    rcases List.mem_cons.mp hp with heq | hp2
    · rw [heq]
      exact ⟨h1, hm1⟩
    · rcases List.mem_cons.mp hp2 with heq | h3
      · rw [heq]
        exact ⟨h2, hm2⟩
      · simp at h3
  rw [send_media_grouped_eq cfg env nf chat [p1, p2] caption bt bu sp hgood]
  have hgd : goodDescs env caption sp true [p1, p2]
      = [⟨SendTg._media_type (env.mime p1), "attach://" ++ n, caption, sp⟩,
         ⟨SendTg._media_type (env.mime p2), "attach://" ++ n, some "", sp⟩] := by
    simp [goodDescs, hb1, hb2]
  have hgf : goodFiles env [] 0 [p1, p2] = [(n, 1)] := by
    simp [goodFiles, hb1, hb2, insertReplace]
  have hcf : currentFilesData env [(n, 1)]
      [(⟨SendTg._media_type (env.mime p1), "attach://" ++ n, caption, sp⟩ : MediaDesc),
       ⟨SendTg._media_type (env.mime p2), "attach://" ++ n, some "", sp⟩]
      = [(n, 1)] := by
    simp [currentFilesData, stringReplace_attach _ hsub, hbn, lookupA,
      insertReplace]
  refine ⟨rfl, ?_, ?_, ?_⟩
  · rw [hgf]
    rfl
  · rw [hgf]
    simp
  · rw [hgd, hgf]
    rw [show chunksOf10
        [(⟨SendTg._media_type (env.mime p1), "attach://" ++ n, caption, sp⟩ : MediaDesc),
         ⟨SendTg._media_type (env.mime p2), "attach://" ++ n, some "", sp⟩]
      = [[(⟨SendTg._media_type (env.mime p1), "attach://" ++ n, caption, sp⟩ : MediaDesc),
          ⟨SendTg._media_type (env.mime p2), "attach://" ++ n, some "", sp⟩]]
      from rfl]
    rw [List.map_cons, List.map_nil, hcf]

/-- Witness for C10: `"a/x.jpg"` and `"b/x.jpg"` both have basename
`"x.jpg"`; only the later handle 1 is closed, handle 0 leaks. -/
theorem send_media_duplicate_basename_collision_witness :
    ("a/x.jpg" : String) ≠ "b/x.jpg"
    ∧ (SendTg.send_media cfgA envDup nfOk "7" ["a/x.jpg", "b/x.jpg"] none
        false false none none false).opened = [0, 1]
    ∧ (SendTg.send_media cfgA envDup nfOk "7" ["a/x.jpg", "b/x.jpg"] none
        false false none none false).closed = [1] := by
  have h := send_media_duplicate_basename_collision cfgA envDup nfOk "7"
    "a/x.jpg" "b/x.jpg" "x.jpg" none none none false (by decide) (by decide)
    (by decide) (by decide) (by decide) (by decide) (by decide) (by decide)
    (by decide)
  exact ⟨by decide, h.1, h.2.1⟩
